import Mathlib

/-
  Verification of pennylane/templates/layers.py.

  The module builds lists of gates.  In the Python source a gate call such as
  Beamsplitter(theta, phi, wires=[w1, w2]) queues one operation on the circuit
  under construction; here a run of a template is embedded as the list of gate
  records it queues, in emission order, and a raised Python exception is an
  Except.error value.  Numeric angles are rationals.  Arrays that are only
  indexed (theta, phi, the weight matrix of StronglyEntanglingLayer) are
  embedded as lookup functions; arrays that are iterated or whose length is
  read (varphi, wire sequences, the flat weight vector of RandomLayer) are
  embedded as lists, with list indexing rendered by getD (every index the
  claims exercise is in range, where Python indexing and getD agree).
-/

namespace PennyLayers

/-- Gate records, one constructor per gate primitive the module emits:
Rot is the three-angle qubit rotation, rot1 a single-parameter rotation from
the RandomLayer palette (RX, RY, RZ by default, identified by name), imprim a
parameterless two-wire imprimitive gate such as CNOT, BS a two-mode
Beamsplitter with transmittivity and phase angles, and R a single-mode
continuous-variable Rotation. -/
inductive Gate (α : Type) : Type where
  | Rot (a b c : ℚ) (wire : α)
  | rot1 (kind : String) (p : ℚ) (wire : α)
  | imprim (w1 w2 : α)
  | BS (theta phi : ℚ) (w1 w2 : α)
  | R (phi : ℚ) (wire : α)
  deriving DecidableEq

/-- A Python value passed for the mesh or beamsplitter keyword argument:
either a plain string or a pennylane Variable (a traced, trainable
parameter object, detected in the source by isinstance(x, Variable)). -/
inductive PyArg : Type where
  | str (s : String)
  | var
  deriving DecidableEq

/-- Errors the module raises: QuantumFunctionError (the structural-parameter
error of the spec) and ValueError (the insufficient-wires error), each with
its message string. -/
inductive LayerError : Type where
  | quantumFunctionError (msg : String)
  | valueError (msg : String)
  deriving DecidableEq

/-- Message of the QuantumFunctionError raised for a Variable beamsplitter
argument. -/
def bsVarMsg : String :=
  "The beamsplitter parameter influences the circuit architecture and can not be passed as a QNode parameter."

/-- Message of the QuantumFunctionError raised for a Variable mesh argument. -/
def meshVarMsg : String :=
  "The mesh parameter influences the circuit architecture and can not be passed as a QNode parameter."

/-- Message of the ValueError raised by StronglyEntanglingLayer on fewer than
two wires. -/
def selWiresMsg : String :=
  "StronglyEntanglingLayer requires at least two wires or subsystems to apply the imprimitive gates."

/-- Message of the ValueError raised by RandomLayer on fewer than two wires. -/
def rlWiresMsg : String :=
  "RandomLayer requires at least two wires or subsystems to apply the imprimitive gates."

/-- Adjacent-pair indices fired in layer l of the rectangular (Clements) mesh:
the inner loop enumerates k over the zipped adjacent pairs, k from 0 to N-2,
and keeps k when (l + k) mod 2 is not 1. -/
def rectLayer (N l : ℕ) : List ℕ :=
  (List.range (N - 1)).filter (fun k => (l + k) % 2 != 1)

/-- Pair indices of the whole rectangular mesh in emission order: the outer
loop runs l over range N, layer-major. -/
def rectKs (N : ℕ) : List ℕ :=
  (List.range N).flatMap (rectLayer N)

/-- Starting pair index of layer l of the triangular (Reck) mesh: the source
computes abs(l + 1 - (N - 1)) over the integers. -/
def triStart (N l : ℕ) : ℕ :=
  ((l : ℤ) + 1 - ((N : ℤ) - 1)).natAbs

/-- Adjacent-pair indices fired in layer l of the triangular mesh: the Python
range(triStart, N-1, 2), rendered as an arithmetic progression of step 2 with
(stop - start + 1) / 2 terms. -/
def triLayer (N l : ℕ) : List ℕ :=
  List.range' (triStart N l) ((N - 1 - triStart N l + 1) / 2) 2

/-- Pair indices of the whole triangular mesh in emission order: the outer
loop runs l over range (2N - 3). -/
def triKs (N : ℕ) : List ℕ :=
  (List.range (2 * N - 3)).flatMap (triLayer N)

/-- Pair indices selected by the mesh argument, mirroring the if and elif
chain of the source; any other mesh value falls through both branches and
emits no two-mode element. -/
def meshKs (mesh : PyArg) (N : ℕ) : List ℕ :=
  if mesh = PyArg.str "rectangular" then rectKs N
  else if mesh = PyArg.str "triangular" then triKs N
  else []

variable {α : Type} [Inhabited α]

/-- Gates of the single two-mode element consuming parameter index n on the
wire pair (w1, w2): under the clements convention a Rotation by phi n on w1
followed by a Beamsplitter (theta n, 0); otherwise a single Beamsplitter
(theta n, phi n). -/
def bsElement (clements : Bool) (theta phi : ℕ → ℚ) (n : ℕ) (w1 w2 : α) : List (Gate α) :=
  if clements then [Gate.R (phi n) w1, Gate.BS (theta n) 0 w1 w2]
  else [Gate.BS (theta n) (phi n) w1 w2]

/-- The beamsplitter array: walk the pair indices in emission order, keeping
the shared free-parameter counter n that the source increments once per
element in either convention. -/
def emitBS (clements : Bool) (theta phi : ℕ → ℚ) (w : List α) :
    List ℕ → ℕ → List (Gate α)
  | [], _ => []
  | k :: ks, n =>
      bsElement clements theta phi n (w.getD k default) (w.getD (k + 1) default)
        ++ emitBS clements theta phi w ks (n + 1)

/-- The final local phase shifts: one Rotation per entry of varphi, entry i
acting on wire i. -/
def varphiRots (varphi : List ℚ) (w : List α) : List (Gate α) :=
  varphi.enum.map (fun p => Gate.R p.2 (w.getD p.1 default))

/-- The Interferometer template.  The source first rejects a Variable
beamsplitter argument, then a Variable mesh argument, each with a
QuantumFunctionError, before touching the wires; a non-sequence wires value is
wrapped into a singleton list, so the embedding takes the wire list w
directly.  With a single wire it emits one Rotation by varphi[0]; otherwise it
emits the beamsplitter array of the selected mesh followed by the final
varphi rotations. -/
def Interferometer (theta phi : ℕ → ℚ) (varphi : List ℚ) (w : List α)
    (mesh beamsplitter : PyArg) : Except LayerError (List (Gate α)) :=
  if beamsplitter = PyArg.var then
    Except.error (LayerError.quantumFunctionError bsVarMsg)
  else if mesh = PyArg.var then
    Except.error (LayerError.quantumFunctionError meshVarMsg)
  else
    let N := w.length
    if N = 1 then
      Except.ok [Gate.R (varphi.getD 0 0) (w.getD 0 default)]
    else
      let clements := decide (beamsplitter = PyArg.str "clements")
      Except.ok (emitBS clements theta phi w (meshKs mesh N) 0 ++ varphiRots varphi w)

/-- Gates of one StronglyEntanglingLayer: a three-angle Rot per wire i from row i
of the weight matrix, then one imprimitive gate per wire i pairing wire i
with wire (i + r) mod N, with the Python modulo on integers rendered as emod
(nonnegative for the positive divisor N). -/
def selGates (weights : ℕ → ℕ → ℚ) (r : ℤ) (w : List α) : List (Gate α) :=
  (w.enum.map (fun p => Gate.Rot (weights p.1 0) (weights p.1 1) (weights p.1 2) p.2))
    ++ (List.range w.length).map
        (fun i => Gate.imprim (w.getD i default)
          (w.getD ((((i : ℤ) + r).emod (w.length : ℤ)).toNat) default))

/-- The StronglyEntanglingLayer template: rejects fewer than two wires with a
ValueError, otherwise emits the rotation row followed by the entangling
cascade. -/
def StronglyEntanglingLayer (weights : ℕ → ℕ → ℚ) (r : ℤ) (w : List α) :
    Except LayerError (List (Gate α)) :=
  if w.length < 2 then Except.error (LayerError.valueError selWiresMsg)
  else Except.ok (selGates weights r w)

/-- The StronglyEntanglingLayers wrapper: a missing ranges argument defaults
to [1] * len(weights); the source zips weight blocks with ranges, so the
iteration stops at the shorter of the two, and each block invokes the single
layer, whose raised error aborts the run. -/
def StronglyEntanglingLayers (weights : List (ℕ → ℕ → ℚ)) (ranges : Option (List ℤ))
    (w : List α) : Except LayerError (List (Gate α)) :=
  let rs := match ranges with
    | none => List.replicate weights.length 1
    | some rs => rs
  (weights.zip rs).foldlM
    (fun acc p => (StronglyEntanglingLayer p.1 p.2 w).map (fun gs => acc ++ gs)) []

/-- The stream of pseudo-random choices one RandomLayer run consumes, indexed
by the loop step: the uniform draw in [0,1) compared against ratioImprim, the
palette index of the rotation kind, the wire index of the rotation target,
and the first two positions of the wire permutation used by the imprimitive
branch. -/
structure RandStream : Type where
  draw : ℕ → ℚ
  rotSel : ℕ → ℕ
  wireSel : ℕ → ℕ
  pairSel : ℕ → ℕ × ℕ

/-- The RandomLayer while loop, with explicit fuel: state i is the index of
the next unconsumed weight entry and t the loop step.  While i < len(weights),
a draw strictly above ratioImprim emits one palette rotation parametrized by
weights[i] on a randomly chosen wire and advances i; otherwise one
imprimitive gate on the first two wires of a random permutation is emitted
and i is unchanged.  Exhausted fuel yields none, standing for a run that has
not yet terminated. -/
def randomLayerLoop (weights : List ℚ) (ratioImprim : ℚ) (rots : List String)
    (w : List α) (rng : RandStream) : ℕ → ℕ → ℕ → Option (List (Gate α))
  | 0, i, _ => if i < weights.length then none else some []
  | fuel + 1, i, t =>
      if i < weights.length then
        if ratioImprim < rng.draw t then
          (randomLayerLoop weights ratioImprim rots w rng fuel (i + 1) (t + 1)).map
            (fun gs =>
              Gate.rot1 (rots.getD (rng.rotSel t) "RX") (weights.getD i 0)
                (w.getD (rng.wireSel t) default) :: gs)
        else
          (randomLayerLoop weights ratioImprim rots w rng fuel i (t + 1)).map
            (fun gs =>
              Gate.imprim (w.getD (rng.pairSel t).1 default)
                (w.getD (rng.pairSel t).2 default) :: gs)
      else some []

/-- The RandomLayer template: rejects fewer than two wires with a ValueError,
otherwise runs the loop from i = 0 with the given fuel. -/
def RandomLayer (fuel : ℕ) (weights : List ℚ) (ratioImprim : ℚ) (rots : List String)
    (w : List α) (rng : RandStream) : Except LayerError (Option (List (Gate α))) :=
  if w.length < 2 then Except.error (LayerError.valueError rlWiresMsg)
  else Except.ok (randomLayerLoop weights ratioImprim rots w rng fuel 0 0)

/-- Recognizer of Beamsplitter records, the two-mode elements of a mesh. -/
def isBS : Gate α → Bool
  | Gate.BS _ _ _ _ => true
  | _ => false

/-- Recognizer of imprimitive-gate records. -/
def isImprim : Gate α → Bool
  | Gate.imprim _ _ => true
  | _ => false

/-- Recognizer of single-parameter palette rotations. -/
def isRot1 : Gate α → Bool
  | Gate.rot1 _ _ _ => true
  | _ => false

/-- The beamsplitter walk under the standard convention is the enumerated map
of single Beamsplitter gates, element i consuming parameter index n + i. -/
lemma emitBS_false (theta phi : ℕ → ℚ) (w : List α) :
    ∀ (ks : List ℕ) (n : ℕ),
      emitBS false theta phi w ks n
        = (ks.enumFrom n).map
            (fun p => Gate.BS (theta p.1) (phi p.1) (w.getD p.2 default) (w.getD (p.2 + 1) default)) := by
  intro ks
  induction ks with
  | nil => intro n; rfl
  | cons k ks ih => intro n; simp [emitBS, bsElement, ih]

/-- The beamsplitter walk under the clements convention: each element is a
Rotation by phi on the first wire followed by a Beamsplitter with zero phase,
with the same parameter counter. -/
lemma emitBS_true (theta phi : ℕ → ℚ) (w : List α) :
    ∀ (ks : List ℕ) (n : ℕ),
      emitBS true theta phi w ks n
        = (ks.enumFrom n).flatMap
            (fun p => [Gate.R (phi p.1) (w.getD p.2 default),
                       Gate.BS (theta p.1) 0 (w.getD p.2 default) (w.getD (p.2 + 1) default)]) := by
  intro ks
  induction ks with
  | nil => intro n; rfl
  | cons k ks ih => intro n; simp [emitBS, bsElement, ih]

/-- Every element of a beamsplitter walk contributes exactly one Beamsplitter
gate, in either convention. -/
lemma emitBS_filter_isBS (c : Bool) (theta phi : ℕ → ℚ) (w : List α) :
    ∀ (ks : List ℕ) (n : ℕ),
      ((emitBS c theta phi w ks n).filter isBS).length = ks.length := by
  intro ks
  induction ks with
  | nil => intro n; rfl
  | cons k ks ih =>
      intro n
      rw [emitBS, List.filter_append, List.length_append, ih]
      cases c <;> simp [bsElement, isBS] <;> omega

/-- The final varphi rotations contain no Beamsplitter gate. -/
lemma varphiRots_filter_isBS (varphi : List ℚ) (w : List α) :
    (varphiRots varphi w).filter isBS = [] := by
  rw [List.filter_eq_nil_iff]
  intro g hg
  rw [varphiRots, List.mem_map] at hg
  obtain ⟨p, _, rfl⟩ := hg
  simp [isBS]

/-- Counting the k kept by the parity filter of one rectangular layer. -/
lemma filter_parity_length (l : ℕ) :
    ∀ m : ℕ, ((List.range m).filter (fun k => (l + k) % 2 != 1)).length
      = if l % 2 = 0 then (m + 1) / 2 else m / 2 := by
  intro m
  induction m with
  | zero => simp
  | succ m ih =>
      rw [List.range_succ, List.filter_append, List.length_append, ih]
      have hsing : ((([m] : List ℕ)).filter (fun k => (l + k) % 2 != 1)).length
          = if (l + m) % 2 = 1 then 0 else 1 := by
        by_cases h : (l + m) % 2 = 1
        · simp [h]
        · have h0 : (l + m) % 2 = 0 := by omega
          simp [h, h0]
      rw [hsing]
      split_ifs <;> omega

/-- Layer l of the rectangular mesh fires N/2 pairs when l is even and
(N-1)/2 pairs when l is odd. -/
lemma rectLayer_length (N l : ℕ) :
    (rectLayer N l).length = if l % 2 = 0 then N / 2 else (N - 1) / 2 := by
  rw [rectLayer, filter_parity_length]
  have h : (N - 1 + 1) / 2 = N / 2 := by omega
  rw [h]

/-- Sum of an alternating two-valued sequence over range j. -/
lemma sum_alt (a b : ℕ) :
    ∀ j : ℕ, (((List.range j).map (fun l => if l % 2 = 0 then a else b)).sum)
      = (j + 1) / 2 * a + j / 2 * b := by
  intro j
  induction j with
  | zero => simp
  | succ j ih =>
      rw [List.range_succ, List.map_append, List.sum_append, ih]
      by_cases h : j % 2 = 0
      · have h1 : (j + 1) / 2 = j / 2 := by omega
        have h2 : (j + 1 + 1) / 2 = j / 2 + 1 := by omega
        simp only [List.map_cons, List.map_nil, List.sum_cons, List.sum_nil, h, if_true, h1, h2]
        ring
      · have h1 : (j + 1) / 2 = j / 2 + 1 := by omega
        have h2 : (j + 1 + 1) / 2 = j / 2 + 1 := by omega
        simp only [List.map_cons, List.map_nil, List.sum_cons, List.sum_nil, h, if_false, h1, h2]
        ring

/-- Closed form of the alternating sum instantiated for the rectangular mesh. -/
lemma arith_rect (N : ℕ) :
    (N + 1) / 2 * (N / 2) + N / 2 * ((N - 1) / 2) = N * (N - 1) / 2 := by
  obtain ⟨q, hq | hq⟩ : ∃ q, N = 2 * q ∨ N = 2 * q + 1 := ⟨N / 2, by omega⟩
  · subst hq
    have h1 : (2 * q + 1) / 2 = q := by omega
    have h2 : 2 * q / 2 = q := by omega
    have h3 : (2 * q - 1) / 2 = q - 1 := by omega
    rw [h1, h2, h3, Nat.mul_assoc 2 q, Nat.mul_comm q (2 * q - 1),
      Nat.mul_div_cancel_left _ (by norm_num : 0 < 2), Nat.mul_comm (2 * q - 1) q]
    cases q with
    | zero => rfl
    | succ p =>
        have h4 : p + 1 - 1 = p := rfl
        have h5 : 2 * (p + 1) - 1 = 2 * p + 1 := by omega
        rw [h4, h5]; ring
  · subst hq
    have h1 : (2 * q + 1 + 1) / 2 = q + 1 := by omega
    have h2 : (2 * q + 1) / 2 = q := by omega
    have h3 : (2 * q + 1 - 1) / 2 = q := by omega
    have h4 : 2 * q + 1 - 1 = 2 * q := by omega
    rw [h1, h2, h3, h4, show (2 * q + 1) * (2 * q) = 2 * ((2 * q + 1) * q) by ring,
      Nat.mul_div_cancel_left _ (by norm_num : 0 < 2)]
    ring

/-- The rectangular mesh fires exactly N(N-1)/2 pairs in total. -/
lemma rectKs_length (N : ℕ) : (rectKs N).length = N * (N - 1) / 2 := by
  rw [rectKs, List.length_flatMap]
  have h : (List.range N).map (List.length ∘ rectLayer N)
      = (List.range N).map (fun l => if l % 2 = 0 then N / 2 else (N - 1) / 2) :=
    List.map_congr_left (fun l _ => rectLayer_length N l)
  rw [h, sum_alt, arith_rect]

/-- Running sum of (l + 2) / 2, the per-layer element counts of the outer
half of the triangular mesh. -/
def halfSum (m : ℕ) : ℕ :=
  ((List.range m).map (fun l => (l + 2) / 2)).sum

lemma halfSum_succ (m : ℕ) : halfSum (m + 1) = halfSum m + (m + 2) / 2 := by
  rw [halfSum, List.range_succ, List.map_append, List.sum_append, halfSum]
  simp

lemma halfSum_closed : ∀ m, 4 * halfSum m + (m + 1) % 2 = (m + 1) * (m + 1) := by
  intro m
  induction m with
  | zero => rfl
  | succ m ih =>
      rw [halfSum_succ, Nat.mul_add,
        show (m + 1 + 1) * (m + 1 + 1) = (m + 1) * (m + 1) + (2 * m + 3) by ring]
      generalize halfSum m = A at ih ⊢
      generalize (m + 1) * (m + 1) = B at ih ⊢
      omega

/-- The inner half of the triangular mesh, summed in reverse, matches the
outer half. -/
lemma revSum_eq_halfSum : ∀ M : ℕ, ((List.range M).map (fun j => (M - j + 1) / 2)).sum = halfSum M := by
  intro M
  induction M with
  | zero => rfl
  | succ M ih =>
      rw [List.range_succ_eq_map, List.map_cons, List.sum_cons, List.map_map, halfSum_succ]
      have h : (List.range M).map ((fun j => (M + 1 - j + 1) / 2) ∘ Nat.succ)
          = (List.range M).map (fun j => (M - j + 1) / 2) :=
        List.map_congr_left (fun j _ => by
          show (M + 1 - (j + 1) + 1) / 2 = (M - j + 1) / 2
          omega)
      rw [h, ih]
      have h2 : (M + 1 - 0 + 1) / 2 = (M + 2) / 2 := by omega
      rw [h2, Nat.add_comm]

lemma tri_arith (M : ℕ) (hM : 1 ≤ M) : halfSum (M - 1) + halfSum M = (M + 1) * M / 2 := by
  have h1 := halfSum_closed (M - 1)
  have h2 := halfSum_closed M
  rw [show M - 1 + 1 = M by omega] at h1
  have key : (M + 1) * (M + 1) = (M + 1) * M + (M + 1) := by ring
  have key2 : (M + 1) * M = M * M + M := by ring
  generalize halfSum (M - 1) = A at h1 ⊢
  generalize halfSum M = A2 at h2 ⊢
  generalize hB : M * M = B at h1 key2
  generalize hC : (M + 1) * (M + 1) = C at h2 key
  generalize hD : (M + 1) * M = D at key key2 ⊢
  omega

/-- The triangular mesh fires exactly N(N-1)/2 pairs in total. -/
lemma triKs_length (N : ℕ) : (triKs N).length = N * (N - 1) / 2 := by
  match N with
  | 0 => decide
  | 1 => decide
  | n + 2 =>
      have hrange : 2 * (n + 2) - 3 = n + (n + 1) := by omega
      rw [triKs, List.length_flatMap, hrange, List.range_add, List.map_append, List.sum_append,
        List.map_map]
      have hfirst : (List.range n).map (List.length ∘ triLayer (n + 2))
          = (List.range n).map (fun l => (l + 2) / 2) :=
        List.map_congr_left (fun l hl => by
          rw [List.mem_range] at hl
          show (triLayer (n + 2) l).length = (l + 2) / 2
          rw [triLayer, List.length_range']
          have hs : triStart (n + 2) l = n - l := by
            rw [triStart]; omega
          rw [hs]; omega)
      have hsecond : (List.range (n + 1)).map ((List.length ∘ triLayer (n + 2)) ∘ (n + ·))
          = (List.range (n + 1)).map (fun j => (n + 1 - j + 1) / 2) :=
        List.map_congr_left (fun j hj => by
          rw [List.mem_range] at hj
          show (triLayer (n + 2) (n + j)).length = (n + 1 - j + 1) / 2
          rw [triLayer, List.length_range']
          have hs : triStart (n + 2) (n + j) = j := by
            rw [triStart]; omega
          rw [hs]; omega)
      rw [hfirst, hsecond, revSum_eq_halfSum]
      have harith := tri_arith (n + 1) (by omega)
      rw [show n + 1 - 1 = n from rfl] at harith
      rw [show ((List.range n).map (fun l => (l + 2) / 2)).sum = halfSum n from rfl, harith]
      rfl

/-- Membership in one rectangular layer is exactly the parity rule of the
source. -/
lemma mem_rectLayer (N l k : ℕ) : k ∈ rectLayer N l ↔ (k < N - 1 ∧ (l + k) % 2 ≠ 1) := by
  simp [rectLayer, List.mem_filter, List.mem_range]

/-- Membership in one triangular layer: k runs from the layer start to N - 2
in steps of two. -/
lemma mem_triLayer (N l k : ℕ) :
    k ∈ triLayer N l ↔ (triStart N l ≤ k ∧ k < N - 1 ∧ (k - triStart N l) % 2 = 0) := by
  rw [triLayer, List.mem_range']
  constructor
  · rintro ⟨i, hi, rfl⟩
    omega
  · rintro ⟨h1, h2, h3⟩
    exact ⟨(k - triStart N l) / 2, by omega, by omega⟩

/-- Unfolding of Interferometer on static arguments and a wire count other
than one. -/
lemma Interferometer_ok (theta phi : ℕ → ℚ) (varphi : List ℚ) (w : List α)
    (mesh bs : PyArg) (hb : bs ≠ PyArg.var) (hm : mesh ≠ PyArg.var) (hN : w.length ≠ 1) :
    Interferometer theta phi varphi w mesh bs
      = Except.ok (emitBS (decide (bs = PyArg.str "clements")) theta phi w (meshKs mesh w.length) 0
          ++ varphiRots varphi w) := by
  rw [Interferometer]
  simp [hb, hm, hN]

/-- Gate payloads of the mesh walk followed by the varphi rotations hold
exactly one Beamsplitter per pair index. -/
lemma mesh_payload_filter (c : Bool) (theta phi : ℕ → ℚ) (varphi : List ℚ) (w : List α)
    (ks : List ℕ) :
    (((emitBS c theta phi w ks 0 ++ varphiRots varphi w).filter isBS)).length = ks.length := by
  rw [List.filter_append, List.length_append, emitBS_filter_isBS, varphiRots_filter_isBS]
  simp

/-- Claim C1 packaged: on N wires the rectangular Interferometer emits, in
order, one Beamsplitter per entry of rectKs N with the n-th element consuming
theta n and phi n, followed by the varphi rotations; rectKs N has exactly
N(N-1)/2 entries, laid out in N layers whose pair k fires iff
(l + k) mod 2 is not 1; and the emitted circuit holds exactly N(N-1)/2
Beamsplitter gates. -/
def RectangularLayoutSpec (theta phi : ℕ → ℚ) (varphi : List ℚ) (w : List α) : Prop :=
  Interferometer theta phi varphi w (PyArg.str "rectangular") (PyArg.str "pennylane")
      = Except.ok
          (((rectKs w.length).enum.map
              (fun p => Gate.BS (theta p.1) (phi p.1) (w.getD p.2 default) (w.getD (p.2 + 1) default)))
            ++ varphiRots varphi w)
    ∧ (rectKs w.length).length = w.length * (w.length - 1) / 2
    ∧ (∀ l k, k ∈ rectLayer w.length l ↔ (k < w.length - 1 ∧ (l + k) % 2 ≠ 1))
    ∧ (∀ gs, Interferometer theta phi varphi w (PyArg.str "rectangular") (PyArg.str "pennylane")
        = Except.ok gs → (gs.filter isBS).length = w.length * (w.length - 1) / 2)

/-- Claim C1: wire count at least two, rectangular mesh, default
beamsplitter convention. -/
theorem interferometer_rectangular_layout (theta phi : ℕ → ℚ) (varphi : List ℚ)
    (w : List α) (h : 2 ≤ w.length) : RectangularLayoutSpec theta phi varphi w := by
  have hok := Interferometer_ok theta phi varphi w (PyArg.str "rectangular")
    (PyArg.str "pennylane") (by decide) (by decide) (by omega)
  have hc : (decide (PyArg.str "pennylane" = PyArg.str "clements")) = false := by decide
  have hmesh : meshKs (PyArg.str "rectangular") w.length = rectKs w.length := by
    simp [meshKs]
  rw [hc, hmesh, emitBS_false] at hok
  have henum : (rectKs w.length).enumFrom 0 = (rectKs w.length).enum := rfl
  rw [henum] at hok
  refine ⟨hok, rectKs_length w.length, fun l k => mem_rectLayer w.length l k, ?_⟩
  intro gs hgs
  rw [hok] at hgs
  have hval : gs = ((rectKs w.length).enum.map
      (fun p => Gate.BS (theta p.1) (phi p.1) (w.getD p.2 default) (w.getD (p.2 + 1) default)))
      ++ varphiRots varphi w := by
    cases hgs; rfl
  subst hval
  have := mesh_payload_filter false theta phi varphi w (rectKs w.length)
  rw [emitBS_false, henum] at this
  rw [this, rectKs_length]

/-- Witness for C1: a concrete four-wire rectangular interferometer. -/
theorem interferometer_rectangular_layout_witness :
    RectangularLayoutSpec (fun n => (n : ℚ)) (fun n => (n : ℚ)) [7] [0, 1, 2, 3] :=
  interferometer_rectangular_layout _ _ _ _ (by decide)

/-- Claim C2 packaged: on N wires the triangular Interferometer emits, in
order, one Beamsplitter per entry of triKs N with the n-th element consuming
theta n and phi n, followed by the varphi rotations; triKs N has exactly
N(N-1)/2 entries laid out in 2N-3 layers, layer l firing the pair indices
from abs(l + 1 - (N - 1)) up to N - 2 in steps of two; and the emitted
circuit holds exactly N(N-1)/2 Beamsplitter gates. -/
def TriangularLayoutSpec (theta phi : ℕ → ℚ) (varphi : List ℚ) (w : List α) : Prop :=
  Interferometer theta phi varphi w (PyArg.str "triangular") (PyArg.str "pennylane")
      = Except.ok
          (((triKs w.length).enum.map
              (fun p => Gate.BS (theta p.1) (phi p.1) (w.getD p.2 default) (w.getD (p.2 + 1) default)))
            ++ varphiRots varphi w)
    ∧ (triKs w.length).length = w.length * (w.length - 1) / 2
    ∧ (∀ l k, k ∈ triLayer w.length l
        ↔ (triStart w.length l ≤ k ∧ k < w.length - 1 ∧ (k - triStart w.length l) % 2 = 0))
    ∧ (∀ gs, Interferometer theta phi varphi w (PyArg.str "triangular") (PyArg.str "pennylane")
        = Except.ok gs → (gs.filter isBS).length = w.length * (w.length - 1) / 2)

/-- Claim C2: wire count at least two, triangular mesh, default beamsplitter
convention. -/
theorem interferometer_triangular_layout (theta phi : ℕ → ℚ) (varphi : List ℚ)
    (w : List α) (h : 2 ≤ w.length) : TriangularLayoutSpec theta phi varphi w := by
  have hok := Interferometer_ok theta phi varphi w (PyArg.str "triangular")
    (PyArg.str "pennylane") (by decide) (by decide) (by omega)
  have hc : (decide (PyArg.str "pennylane" = PyArg.str "clements")) = false := by decide
  have hmesh : meshKs (PyArg.str "triangular") w.length = triKs w.length := by
    simp [meshKs]
  rw [hc, hmesh, emitBS_false] at hok
  have henum : (triKs w.length).enumFrom 0 = (triKs w.length).enum := rfl
  rw [henum] at hok
  refine ⟨hok, triKs_length w.length, fun l k => mem_triLayer w.length l k, ?_⟩
  intro gs hgs
  rw [hok] at hgs
  have hval : gs = ((triKs w.length).enum.map
      (fun p => Gate.BS (theta p.1) (phi p.1) (w.getD p.2 default) (w.getD (p.2 + 1) default)))
      ++ varphiRots varphi w := by
    cases hgs; rfl
  subst hval
  have := mesh_payload_filter false theta phi varphi w (triKs w.length)
  rw [emitBS_false, henum] at this
  rw [this, triKs_length]

/-- Witness for C2: a concrete four-wire triangular interferometer. -/
theorem interferometer_triangular_layout_witness :
    TriangularLayoutSpec (fun n => (n : ℚ)) (fun n => (n : ℚ)) [7] [0, 1, 2, 3] :=
  interferometer_triangular_layout _ _ _ _ (by decide)

/-- Claim C6 packaged: for a given mesh the standard and the clements runs
walk the same pair list meshKs, of size N(N-1)/2, consuming theta and phi at
the same indices in the same order; under clements each two-mode element is
preceded by a Rotation by phi n on the first wire of its pair and the
Beamsplitter carries (theta n, 0) in place of (theta n, phi n); both runs
hold the same number of Beamsplitter gates. -/
def ClementsRelationSpec (theta phi : ℕ → ℚ) (varphi : List ℚ) (w : List α) (mesh : PyArg) : Prop :=
  (meshKs mesh w.length).length = w.length * (w.length - 1) / 2
  ∧ Interferometer theta phi varphi w mesh (PyArg.str "pennylane")
      = Except.ok
          (((meshKs mesh w.length).enum.map
              (fun p => Gate.BS (theta p.1) (phi p.1) (w.getD p.2 default) (w.getD (p.2 + 1) default)))
            ++ varphiRots varphi w)
  ∧ Interferometer theta phi varphi w mesh (PyArg.str "clements")
      = Except.ok
          (((meshKs mesh w.length).enum.flatMap
              (fun p => [Gate.R (phi p.1) (w.getD p.2 default),
                         Gate.BS (theta p.1) 0 (w.getD p.2 default) (w.getD (p.2 + 1) default)]))
            ++ varphiRots varphi w)
  ∧ (∀ gsS gsC, Interferometer theta phi varphi w mesh (PyArg.str "pennylane") = Except.ok gsS
      → Interferometer theta phi varphi w mesh (PyArg.str "clements") = Except.ok gsC
      → (gsS.filter isBS).length = (gsC.filter isBS).length)

/-- Claim C6: at least two wires, mesh rectangular or triangular. -/
theorem interferometer_clements_vs_standard (theta phi : ℕ → ℚ) (varphi : List ℚ)
    (w : List α) (mesh : PyArg) (h2 : 2 ≤ w.length)
    (hm : mesh = PyArg.str "rectangular" ∨ mesh = PyArg.str "triangular") :
    ClementsRelationSpec theta phi varphi w mesh := by
  have hmv : mesh ≠ PyArg.var := by rcases hm with rfl | rfl <;> decide
  have hokS := Interferometer_ok theta phi varphi w mesh (PyArg.str "pennylane")
    (by decide) hmv (by omega)
  have hokC := Interferometer_ok theta phi varphi w mesh (PyArg.str "clements")
    (by decide) hmv (by omega)
  have hcS : (decide (PyArg.str "pennylane" = PyArg.str "clements")) = false := by decide
  have hcC : (decide (PyArg.str "clements" = PyArg.str "clements")) = true := by decide
  rw [hcS, emitBS_false] at hokS
  rw [hcC, emitBS_true] at hokC
  have henum : ∀ ks : List ℕ, ks.enumFrom 0 = ks.enum := fun _ => rfl
  rw [henum] at hokS
  rw [henum] at hokC
  refine ⟨?_, hokS, hokC, ?_⟩
  · rcases hm with rfl | rfl
    · simpa [meshKs] using rectKs_length w.length
    · simpa [meshKs] using triKs_length w.length
  · intro gsS gsC hS hC
    rw [hokS] at hS
    rw [hokC] at hC
    have hvS : gsS = ((meshKs mesh w.length).enum.map
        (fun p => Gate.BS (theta p.1) (phi p.1) (w.getD p.2 default) (w.getD (p.2 + 1) default)))
        ++ varphiRots varphi w := by cases hS; rfl
    have hvC : gsC = ((meshKs mesh w.length).enum.flatMap
        (fun p => [Gate.R (phi p.1) (w.getD p.2 default),
                   Gate.BS (theta p.1) 0 (w.getD p.2 default) (w.getD (p.2 + 1) default)]))
        ++ varphiRots varphi w := by cases hC; rfl
    subst hvS
    subst hvC
    have h1 := mesh_payload_filter false theta phi varphi w (meshKs mesh w.length)
    have h2 := mesh_payload_filter true theta phi varphi w (meshKs mesh w.length)
    rw [emitBS_false, henum] at h1
    rw [emitBS_true, henum] at h2
    rw [h1, h2]

/-- Witness for C6: a concrete three-wire rectangular instance. -/
theorem interferometer_clements_vs_standard_witness :
    ClementsRelationSpec (fun n => (n : ℚ)) (fun n => (n : ℚ) + 10) [5]
      ([0, 1, 2] : List ℕ) (PyArg.str "rectangular") :=
  interferometer_clements_vs_standard _ _ _ _ _ (by decide) (Or.inl rfl)

/-- Claim C7: a Variable mesh or beamsplitter selector makes Interferometer
fail with the QuantumFunctionError of the offending selector; the error value
carries no gates, so nothing is emitted before the failure. -/
theorem interferometer_variable_selector_error (theta phi : ℕ → ℚ) (varphi : List ℚ)
    (w : List α) (mesh bs : PyArg) (h : mesh = PyArg.var ∨ bs = PyArg.var) :
    Interferometer theta phi varphi w mesh bs
      = Except.error (LayerError.quantumFunctionError
          (if bs = PyArg.var then bsVarMsg else meshVarMsg)) := by
  rw [Interferometer]
  by_cases hb : bs = PyArg.var
  · simp [hb]
  · have hm : mesh = PyArg.var := by tauto
    simp [hb, hm]

/-- Witness for C7: both selectors exercised at concrete inputs. -/
theorem interferometer_variable_selector_error_witness :
    Interferometer (fun _ => (0 : ℚ)) (fun _ => (0 : ℚ)) [] ([0, 1] : List ℕ)
        PyArg.var (PyArg.str "pennylane")
      = Except.error (LayerError.quantumFunctionError meshVarMsg)
    ∧ Interferometer (fun _ => (0 : ℚ)) (fun _ => (0 : ℚ)) [] ([0, 1] : List ℕ)
        (PyArg.str "rectangular") PyArg.var
      = Except.error (LayerError.quantumFunctionError bsVarMsg) := by
  constructor
  · have h := interferometer_variable_selector_error (fun _ => (0 : ℚ)) (fun _ => (0 : ℚ))
      [] ([0, 1] : List ℕ) PyArg.var (PyArg.str "pennylane") (Or.inl rfl)
    simpa using h
  · have h := interferometer_variable_selector_error (fun _ => (0 : ℚ)) (fun _ => (0 : ℚ))
      [] ([0, 1] : List ℕ) (PyArg.str "rectangular") PyArg.var (Or.inr rfl)
    simpa using h

/-- Counterexample to claim C3: with the unrecognized mesh value foo the call
completes normally, returning the two varphi rotations, instead of failing
with an unsupported-topology error. -/
theorem interferometer_unknown_mesh_cex :
    Interferometer (fun _ => (0 : ℚ)) (fun _ => (0 : ℚ)) [1, 2] ([0, 1] : List ℕ)
        (PyArg.str "foo") (PyArg.str "pennylane")
      = Except.ok [Gate.R 1 0, Gate.R 2 1] := by
  rfl

/-- Claim C3 as amended: a mesh value that is neither rectangular nor
triangular (and not a Variable) makes Interferometer on two or more wires
complete normally, emitting no two-mode element, only the trailing varphi
rotations. -/
theorem interferometer_unknown_mesh_silent (theta phi : ℕ → ℚ) (varphi : List ℚ)
    (w : List α) (mesh bs : PyArg) (h2 : 2 ≤ w.length) (hb : bs ≠ PyArg.var)
    (hm1 : mesh ≠ PyArg.var) (hm2 : mesh ≠ PyArg.str "rectangular")
    (hm3 : mesh ≠ PyArg.str "triangular") :
    Interferometer theta phi varphi w mesh bs = Except.ok (varphiRots varphi w) := by
  have hok := Interferometer_ok theta phi varphi w mesh bs hb hm1 (by omega)
  have hmesh : meshKs mesh w.length = [] := by simp [meshKs, hm2, hm3]
  rw [hmesh] at hok
  simpa [emitBS] using hok

/-- Witness for the amended C3 at a concrete unrecognized mesh string. -/
theorem interferometer_unknown_mesh_silent_witness :
    Interferometer (fun _ => (0 : ℚ)) (fun _ => (0 : ℚ)) [3] ([0, 1] : List ℕ)
        (PyArg.str "hexagonal") (PyArg.str "pennylane") = Except.ok [Gate.R 3 0] := by
  have h := interferometer_unknown_mesh_silent (fun _ => (0 : ℚ)) (fun _ => (0 : ℚ))
    [3] ([0, 1] : List ℕ) (PyArg.str "hexagonal") (PyArg.str "pennylane")
    (by decide) (by decide) (by decide) (by decide) (by decide)
  rw [h]
  rfl

/-- Claim C8 packaged: one three-angle rotation per wire from the matching
weight row, then exactly one imprimitive gate per wire i, pairing wire i with
wire (i + r) mod N, in wire order. -/
def EntanglingLayerSpec (weights : ℕ → ℕ → ℚ) (r : ℤ) (w : List α) : Prop :=
  StronglyEntanglingLayer weights r w
      = Except.ok
          ((w.enum.map (fun p => Gate.Rot (weights p.1 0) (weights p.1 1) (weights p.1 2) p.2))
            ++ (List.range w.length).map
                (fun i => Gate.imprim (w.getD i default)
                  (w.getD ((((i : ℤ) + r).emod (w.length : ℤ)).toNat) default)))
  ∧ (∀ gs, StronglyEntanglingLayer weights r w = Except.ok gs
      → (gs.filter isImprim).length = w.length)

/-- Claim C8: wire count at least two, any weight matrix and any range. -/
theorem stronglyEntanglingLayer_layout (weights : ℕ → ℕ → ℚ) (r : ℤ) (w : List α)
    (h : 2 ≤ w.length) : EntanglingLayerSpec weights r w := by
  have hok : StronglyEntanglingLayer weights r w = Except.ok (selGates weights r w) := by
    rw [StronglyEntanglingLayer, if_neg (by omega)]
  refine ⟨hok, ?_⟩
  intro gs hgs
  rw [hok] at hgs
  have hval : gs = selGates weights r w := by cases hgs; rfl
  subst hval
  rw [selGates, List.filter_append, List.length_append]
  have h1 : ((w.enum.map (fun p => Gate.Rot (weights p.1 0) (weights p.1 1) (weights p.1 2) p.2)).filter
      (isImprim (α := α))) = [] := by
    rw [List.filter_eq_nil_iff]
    intro g hg
    rw [List.mem_map] at hg
    obtain ⟨p, _, rfl⟩ := hg
    simp [isImprim]
  have h2 : (((List.range w.length).map
      (fun i => Gate.imprim (w.getD i default)
        (w.getD ((((i : ℤ) + r).emod (w.length : ℤ)).toNat) default))).filter
      (isImprim (α := α))).length = w.length := by
    rw [List.filter_eq_self.mpr, List.length_map, List.length_range]
    intro g hg
    rw [List.mem_map] at hg
    obtain ⟨i, _, rfl⟩ := hg
    simp [isImprim]
  rw [h1, h2]
  simp

/-- Witness for C8: four wires and range one give the entangling pairs
(0,1), (1,2), (2,3), (3,0) after the per-wire rotations. -/
theorem stronglyEntanglingLayer_layout_witness :
    StronglyEntanglingLayer (fun _ _ => (0 : ℚ)) 1 ([0, 1, 2, 3] : List ℕ)
      = Except.ok
          [Gate.Rot 0 0 0 0, Gate.Rot 0 0 0 1, Gate.Rot 0 0 0 2, Gate.Rot 0 0 0 3,
           Gate.imprim 0 1, Gate.imprim 1 2, Gate.imprim 2 3, Gate.imprim 3 0] := by
  have h := stronglyEntanglingLayer_layout (fun _ _ => (0 : ℚ)) 1 ([0, 1, 2, 3] : List ℕ)
    (by decide)
  rw [h.1]
  rfl

/-- A fixed pseudo-random stream whose uniform draws are all zero, used as a
concrete input. -/
def rngZero : RandStream :=
  ⟨fun _ => 0, fun _ => 0, fun _ => 0, fun _ => (0, 1)⟩

/-- Claim C9 packaged: on fewer than two wires both templates fail with
their insufficient-wires ValueError; on two or more wires both return
normally. -/
def WirePreconditionSpec (weights : ℕ → ℕ → ℚ) (r : ℤ) (fuel : ℕ) (weights2 : List ℚ)
    (ratioImprim : ℚ) (rots : List String) (rng : RandStream) (w : List α) : Prop :=
  (w.length < 2 →
      StronglyEntanglingLayer weights r w = Except.error (LayerError.valueError selWiresMsg)
      ∧ RandomLayer fuel weights2 ratioImprim rots w rng
          = Except.error (LayerError.valueError rlWiresMsg))
  ∧ (2 ≤ w.length →
      StronglyEntanglingLayer weights r w = Except.ok (selGates weights r w)
      ∧ RandomLayer fuel weights2 ratioImprim rots w rng
          = Except.ok (randomLayerLoop weights2 ratioImprim rots w rng fuel 0 0))

/-- Claim C9: the wire-count precondition of both layer templates. -/
theorem layer_wire_precondition (weights : ℕ → ℕ → ℚ) (r : ℤ) (fuel : ℕ)
    (weights2 : List ℚ) (ratioImprim : ℚ) (rots : List String) (rng : RandStream)
    (w : List α) : WirePreconditionSpec weights r fuel weights2 ratioImprim rots rng w := by
  constructor
  · intro h
    exact ⟨by rw [StronglyEntanglingLayer, if_pos h], by rw [RandomLayer, if_pos h]⟩
  · intro h
    exact ⟨by rw [StronglyEntanglingLayer, if_neg (by omega)],
           by rw [RandomLayer, if_neg (by omega)]⟩

/-- Witness for C9: one wire trips both errors, two wires trip neither. -/
theorem layer_wire_precondition_witness :
    (StronglyEntanglingLayer (fun _ _ => (0 : ℚ)) 1 ([5] : List ℕ)
        = Except.error (LayerError.valueError selWiresMsg)
      ∧ RandomLayer 0 [] 0 [] ([5] : List ℕ) rngZero
          = Except.error (LayerError.valueError rlWiresMsg))
    ∧ (StronglyEntanglingLayer (fun _ _ => (0 : ℚ)) 1 ([5, 6] : List ℕ)
        = Except.ok (selGates (fun _ _ => (0 : ℚ)) 1 [5, 6])
      ∧ RandomLayer 0 [] 0 [] ([5, 6] : List ℕ) rngZero
          = Except.ok (randomLayerLoop [] 0 [] [5, 6] rngZero 0 0 0)) :=
  ⟨(layer_wire_precondition (fun _ _ => (0 : ℚ)) 1 0 [] 0 [] rngZero [5]).1 (by decide),
   (layer_wire_precondition (fun _ _ => (0 : ℚ)) 1 0 [] 0 [] rngZero [5, 6]).2 (by decide)⟩

/-- Zipping a list with a same-length constant replicate pairs every element
with that constant. -/
lemma zip_replicate_self {γ : Type} {δ : Type} (c : δ) :
    ∀ l : List γ, l.zip (List.replicate l.length c) = l.map (fun b => (b, c)) := by
  intro l
  induction l with
  | nil => rfl
  | cons x xs ih => simp [List.replicate_succ, ih]

/-- Running the zipped blocks through the layer accumulator concatenates the
per-layer gate lists, provided the wire precondition holds. -/
lemma foldlM_sel (w : List α) (h : 2 ≤ w.length) :
    ∀ (blocks : List ((ℕ → ℕ → ℚ) × ℤ)) (acc : List (Gate α)),
      (blocks.foldlM
          (fun acc p => (StronglyEntanglingLayer p.1 p.2 w).map (fun gs => acc ++ gs)) acc)
        = Except.ok (acc ++ (blocks.map (fun p => selGates p.1 p.2 w)).flatten) := by
  intro blocks
  induction blocks with
  | nil => intro acc; simp; rfl
  | cons b bs ih =>
      intro acc
      rw [List.foldlM_cons]
      have hok : StronglyEntanglingLayer b.1 b.2 w = Except.ok (selGates b.1 b.2 w) := by
        rw [StronglyEntanglingLayer, if_neg (by omega)]
      rw [hok]
      show (bs.foldlM
          (fun acc p => (StronglyEntanglingLayer p.1 p.2 w).map (fun gs => acc ++ gs))
          (acc ++ selGates b.1 b.2 w)) = _
      rw [ih]
      simp

/-- Claim C10 packaged: with an explicit ranges list the wrapper applies
exactly min(L, m) layers, pairing weight rows with ranges positionally,
and silently drops trailing weight rows; with ranges missing it applies all
L layers with range one. -/
def LayersPairingSpec (weights : List (ℕ → ℕ → ℚ)) (rs : List ℤ) (w : List α) : Prop :=
  (weights.zip rs).length = min weights.length rs.length
  ∧ StronglyEntanglingLayers weights (some rs) w
      = Except.ok (((weights.zip rs).map (fun p => selGates p.1 p.2 w)).flatten)
  ∧ StronglyEntanglingLayers weights none w
      = Except.ok ((weights.map (fun bw => selGates bw 1 w)).flatten)

/-- Claim C10: positional pairing of weight rows and ranges in the layer
repeater. -/
theorem stronglyEntanglingLayers_pairing (weights : List (ℕ → ℕ → ℚ)) (rs : List ℤ)
    (w : List α) (h : 2 ≤ w.length) : LayersPairingSpec weights rs w := by
  refine ⟨by simp, ?_, ?_⟩
  · rw [StronglyEntanglingLayers]
    rw [foldlM_sel w h (weights.zip rs) []]
    simp
  · rw [StronglyEntanglingLayers]
    show ((weights.zip (List.replicate weights.length 1)).foldlM
        (fun acc p => (StronglyEntanglingLayer p.1 p.2 w).map (fun gs => acc ++ gs)) [])
      = _
    rw [foldlM_sel w h (weights.zip (List.replicate weights.length 1)) [],
      zip_replicate_self, List.map_map]
    rfl

/-- Witness for C10: two weight rows but a single range entry apply exactly
one layer. -/
theorem stronglyEntanglingLayers_pairing_witness :
    LayersPairingSpec [fun _ _ => (0 : ℚ), fun _ _ => (1 : ℚ)] [1] ([0, 1] : List ℕ) :=
  stronglyEntanglingLayers_pairing _ _ _ (by decide)

/-- When every uniform draw lies strictly above the ratio, each loop step
takes the rotation branch, so a run with fuel equal to the number of
remaining weight entries consumes them in order, one palette rotation per
entry. -/
lemma randomLayerLoop_all_rot (weights : List ℚ) (ratioImprim : ℚ) (rots : List String)
    (w : List α) (rng : RandStream) (hdraw : ∀ s, ratioImprim < rng.draw s) :
    ∀ (fuel i t : ℕ), weights.length = i + fuel →
      randomLayerLoop weights ratioImprim rots w rng fuel i t
        = some ((List.range fuel).map
            (fun j => Gate.rot1 (rots.getD (rng.rotSel (t + j)) "RX") (weights.getD (i + j) 0)
              (w.getD (rng.wireSel (t + j)) default))) := by
  intro fuel
  induction fuel with
  | zero =>
      intro i t hlen
      rw [randomLayerLoop, if_neg (by omega)]
      simp
  | succ fuel ih =>
      intro i t hlen
      rw [randomLayerLoop, if_pos (by omega), if_pos (hdraw t), ih (i + 1) (t + 1) (by omega)]
      rw [Option.map_some']
      congr 1
      rw [List.range_succ_eq_map, List.map_cons, List.map_map]
      congr 1
      apply List.map_congr_left
      intro j hj
      simp only [Function.comp_apply, Nat.succ_eq_add_one]
      rw [show t + (j + 1) = t + 1 + j by omega, show i + (j + 1) = i + 1 + j by omega]

/-- Claim C4 packaged (as amended): with ratio zero and strictly positive
draws, the run with fuel K = len(weights) returns exactly one palette
rotation per weight entry, entry j parametrizing the j-th emitted gate, and
the output holds K rotations and no imprimitive gate. -/
def ZeroRatioSpec (weights : List ℚ) (rots : List String) (w : List α) (rng : RandStream) : Prop :=
  RandomLayer weights.length weights 0 rots w rng
      = Except.ok (some ((List.range weights.length).map
          (fun j => Gate.rot1 (rots.getD (rng.rotSel j) "RX") (weights.getD j 0)
            (w.getD (rng.wireSel j) default))))
  ∧ (∀ gs, RandomLayer weights.length weights 0 rots w rng = Except.ok (some gs) →
      (gs.filter isRot1).length = weights.length ∧ (gs.filter isImprim).length = 0)

/-- Claim C4 (amended: all draws strictly positive, so no draw ties the zero
ratio): RandomLayer with ratio zero emits only rotations, one per weight
entry, in order. -/
theorem randomLayer_zero_ratio (weights : List ℚ) (rots : List String) (w : List α)
    (rng : RandStream) (h2 : 2 ≤ w.length) (hdraw : ∀ s, (0 : ℚ) < rng.draw s) :
    ZeroRatioSpec weights rots w rng := by
  have hloop := randomLayerLoop_all_rot weights 0 rots w rng hdraw weights.length 0 0 (by omega)
  have hok : RandomLayer weights.length weights 0 rots w rng
      = Except.ok (randomLayerLoop weights 0 rots w rng weights.length 0 0) := by
    rw [RandomLayer, if_neg (by omega)]
  simp only [Nat.zero_add] at hloop
  constructor
  · rw [hok, hloop]
  · intro gs hgs
    rw [hok, hloop] at hgs
    have hval : gs = (List.range weights.length).map
        (fun j => Gate.rot1 (rots.getD (rng.rotSel j) "RX") (weights.getD j 0)
          (w.getD (rng.wireSel j) default)) := by
      cases hgs; rfl
    subst hval
    constructor
    · rw [List.filter_eq_self.mpr, List.length_map, List.length_range]
      intro g hg
      rw [List.mem_map] at hg
      obtain ⟨j, _, rfl⟩ := hg
      simp [isRot1]
    · rw [List.filter_eq_nil_iff.mpr, List.length_nil]
      intro g hg
      rw [List.mem_map] at hg
      obtain ⟨j, _, rfl⟩ := hg
      simp [isImprim]

/-- A fixed stream with all uniform draws equal to one half. -/
def rngHalf : RandStream :=
  ⟨fun _ => 1 / 2, fun t => t % 3, fun t => t % 2, fun _ => (0, 1)⟩

/-- Witness for the amended C4 on two weights, the default palette and two
wires. -/
theorem randomLayer_zero_ratio_witness :
    ZeroRatioSpec [5, 7] ["RX", "RY", "RZ"] ([0, 1] : List ℕ) rngHalf :=
  randomLayer_zero_ratio [5, 7] ["RX", "RY", "RZ"] ([0, 1] : List ℕ) rngHalf
    (by decide) (fun s => by norm_num [rngHalf])

/-- A fixed stream whose first uniform draw is exactly zero and whose later
draws are one. -/
def rngFirstZero : RandStream :=
  ⟨fun t => if t = 0 then 0 else 1, fun _ => 0, fun _ => 0, fun _ => (0, 1)⟩

/-- Counterexample to claim C4 as stated: the draw u = 0 lies in [0,1), yet
with ratio zero the comparison u > 0 fails and the step emits an imprimitive
gate, so a run with such a draw holds an imprimitive gate despite
ratio zero. -/
theorem randomLayer_zero_ratio_cex :
    RandomLayer 2 [5] 0 ["RX"] ([0, 1] : List ℕ) rngFirstZero
      = Except.ok (some [Gate.imprim 0 1, Gate.rot1 "RX" 5 0])
    ∧ ((([Gate.imprim 0 1, Gate.rot1 "RX" 5 0] : List (Gate ℕ)).filter isImprim).length ≠ 0) := by
  constructor
  · rfl
  · decide

/-- Fuel-indexed termination of the RandomLayer loop: if the draws at the
steps the run will visit include at least as many values strictly above the
ratio as there are unconsumed weight entries, the loop finishes within that
fuel. -/
lemma randomLayerLoop_term (weights : List ℚ) (ratioImprim : ℚ) (rots : List String)
    (w : List α) (rng : RandStream) :
    ∀ (fuel i t : ℕ),
      weights.length - i
          ≤ ((List.range' t fuel).filter (fun s => decide (ratioImprim < rng.draw s))).length →
      (randomLayerLoop weights ratioImprim rots w rng fuel i t).isSome := by
  intro fuel
  induction fuel with
  | zero =>
      intro i t h
      simp only [List.range'_zero, List.filter_nil, List.length_nil, Nat.le_zero] at h
      rw [randomLayerLoop, if_neg (by omega)]
      rfl
  | succ fuel ih =>
      intro i t h
      by_cases hi : i < weights.length
      · rw [randomLayerLoop, if_pos hi]
        rw [List.range'_succ, List.filter_cons] at h
        simp only [decide_eq_true_eq] at h
        by_cases hd : ratioImprim < rng.draw t
        · rw [if_pos hd]
          rw [Option.isSome_map']
          apply ih (i + 1) (t + 1)
          rw [if_pos hd, List.length_cons] at h
          omega
        · rw [if_neg hd]
          rw [Option.isSome_map']
          apply ih i (t + 1)
          rw [if_neg hd] at h
          exact h
      · rw [randomLayerLoop, if_neg hi]
        rfl

/-- Claim C5 packaged (as amended): the run returns normally with some gate
list within the given fuel. -/
def RandomTerminationSpec (fuel : ℕ) (weights : List ℚ) (ratioImprim : ℚ)
    (rots : List String) (rng : RandStream) (w : List α) : Prop :=
  ∃ gs, RandomLayer fuel weights ratioImprim rots w rng = Except.ok (some gs)

/-- Claim C5 (amended): the RandomLayer loop terminates provided the draw
sequence offers at least len(weights) draws strictly above the ratio within
the fuel window; the rotation branch is the only one advancing the counter
and each such draw advances it by one. -/
theorem randomLayer_terminates (fuel : ℕ) (weights : List ℚ) (ratioImprim : ℚ)
    (rots : List String) (rng : RandStream) (w : List α) (h2 : 2 ≤ w.length)
    (hdraws : weights.length
      ≤ ((List.range fuel).filter (fun s => decide (ratioImprim < rng.draw s))).length) :
    RandomTerminationSpec fuel weights ratioImprim rots rng w := by
  rw [List.range_eq_range'] at hdraws
  have h := randomLayerLoop_term weights ratioImprim rots w rng fuel 0 0 (by omega)
  obtain ⟨gs, hgs⟩ := Option.isSome_iff_exists.mp h
  exact ⟨gs, by rw [RandomLayer, if_neg (by omega), hgs]⟩

/-- A fixed stream with all uniform draws equal to three quarters. -/
def rngThreeQuarters : RandStream :=
  ⟨fun _ => 3 / 4, fun _ => 0, fun _ => 0, fun _ => (0, 1)⟩

/-- Witness for the amended C5: ratio one half, draws three quarters, one
weight entry, fuel one. -/
theorem randomLayer_terminates_witness :
    RandomTerminationSpec 1 [3] (1 / 2) ["RX"] rngThreeQuarters ([0, 1] : List ℕ) :=
  randomLayer_terminates 1 [3] (1 / 2) ["RX"] rngThreeQuarters ([0, 1] : List ℕ)
    (by decide)
    (by
      simp [rngThreeQuarters, List.range_succ, List.filter_cons]
      rw [if_pos (by norm_num)]
      simp)

/-- Counterexample to claim C5 as stated: with ratio one (a value the source
docstring admits) and a draw stream never exceeding it, the loop on two
wires and one weight entry never terminates, whatever the fuel. -/
theorem randomLayer_nontermination_cex :
    ¬ (∃ fuel gs, RandomLayer fuel [0] 1 ["RX"] ([0, 1] : List ℕ) rngZero
        = Except.ok (some gs)) := by
  rintro ⟨fuel, gs, h⟩
  rw [RandomLayer, if_neg (by decide)] at h
  have hloop : ∀ (f t : ℕ),
      randomLayerLoop [0] 1 ["RX"] ([0, 1] : List ℕ) rngZero f 0 t = none := by
    intro f
    induction f with
    | zero => intro t; rw [randomLayerLoop, if_pos (by decide)]
    | succ f ih =>
        intro t
        rw [randomLayerLoop, if_pos (by decide), if_neg (by norm_num [rngZero]), ih (t + 1)]
        rfl
  rw [hloop fuel 0] at h
  simp at h

end PennyLayers
